import Mathlib

/-!
Shallow embedding of the wallet lifecycle sagas of this repository
(`startWallet`, `loadTokens`, `fetchTokensMetadata`, `listenForFeatureFlags`,
`listenForWalletReady`, `handleTx`, `setupWalletListeners`, `bestBlockUpdate`,
`walletReloading`).  Each saga is modelled as a function from its inputs and
the relevant slice of the redux store to the list of effects it yields (`put`
dispatches, `call`s to collaborators, `fork`/`spawn`s of child sagas, thread
cancellations and router navigations), in program order.  The external event
emitters (the wallet facade, its connection object and the feature-flag
provider) are modelled with Node `EventEmitter` semantics: a listener list
keyed by event name and function identity, where every evaluation of a
function expression yields a fresh identity, so two syntactically identical
arrow functions are distinct listeners.
-/

namespace HathorSagas

/-- Token identifiers (`uid` strings in the source). -/
abbrev TokenId := String

/-- Models `hathorLibConstants.HATHOR_TOKEN_CONFIG.uid`, the base-currency
(HTR) token uid imported from the wallet library. -/
def htrUid : TokenId := "00"

/-- One effect yielded by a saga: a `put` of an action, a `call` to an
external collaborator, a `fork`/`spawn` of a child saga, a cancellation of
the thread group, a blocking `take`/`race`, or a router navigation. -/
inductive Effect where
  | loadingAddresses (b : Bool)
  | storeRouterHistory
  | reloadData
  | isOnlineUpdate (b : Bool)
  | setUseWalletService (b : Bool)
  | setWallet
  | forkSetupWalletListeners
  | forkListenForWalletReady
  | forkListenForFeatureFlags
  | setServerInfo (version : Option String) (network : String)
  | callIgnoreWalletServiceFlag
  | cancelThreads
  | redispatchStartAction
  | routerReplace (path : String)
  | startWalletFailed
  | walletStateError
  | walletStateReady
  | raceReadyOrError
  | takeWalletStateReady
  | callFetchTokenData (t : TokenId)
  | spawnFetchTokensMetadata (ts : List TokenId)
  | tokenFetchBalanceRequested (t : TokenId) (forced : Bool)
  | tokenFetchHistoryRequested (t : TokenId) (forced : Bool)
  | loadWalletSuccess (ts : List TokenId)
  | metadataLoaded (b : Bool)
  | tokenFetchMetadataRequested (t : TokenId)
  | tokenMetadataUpdated (metas : List (TokenId × String)) (errors : List TokenId)
  | reloadWalletRequested
  | sharedAddressUpdate (addr : String) (idx : Nat)
  | tokenInvalidateHistory (t : TokenId)
  | callGetNewAddresses
  | walletRefreshSharedAddress
  | notifySend (isBlock : Bool)
  deriving DecidableEq, Repr

/-! ## Node EventEmitter model (for the listener-cleanup behaviour)

A listener registration is an event name together with the identity of the
registered function.  JavaScript function values are compared by reference:
every evaluation of an arrow-function expression produces a fresh object, so
we give each function expression occurring in the source its own numeric
identity.  `removeListener` removes at most one registration, and only one
whose function is reference-equal to the argument. -/

structure Emitter where
  listeners : List (String × Nat)
  deriving DecidableEq, Repr

/-- `emitter.on(event, f)`: appends a registration. -/
def Emitter.on (e : Emitter) (event : String) (fid : Nat) : Emitter :=
  ⟨e.listeners ++ [(event, fid)]⟩

/-- `emitter.removeListener(event, f)`: removes at most one registration whose
event name matches and whose function is reference-equal to `f`; if none
matches, the emitter is unchanged. -/
def Emitter.removeListener (e : Emitter) (event : String) (fid : Nat) : Emitter :=
  ⟨((e.listeners.reverse).eraseP (fun p => p.1 == event && p.2 == fid)).reverse⟩

/-- The wallet facade and its connection object, the two emitters touched by
`setupWalletListeners`. -/
structure WalletEmitters where
  wallet : Emitter
  conn : Emitter
  deriving DecidableEq, Repr

/-! Function identities for `setupWalletListeners`'s event channel: the
`const listener = (state) => emitter(state)` binding is identity `0`; the six
anonymous arrow functions actually passed to `on(...)` are identities
`1`–`6`, all distinct from `0`. -/

def swlListener : Nat := 0
def swlBestBlockAnon : Nat := 1
def swlPartialAnon : Nat := 2
def swlConnStateAnon : Nat := 3
def swlReloadDataAnon : Nat := 4
def swlUpdateTxAnon : Nat := 5
def swlNewTxAnon : Nat := 6

/-- The subscriber of `setupWalletListeners`'s `eventChannel`: the six
`on(...)` calls, in source order. -/
def setupWalletListenersSubscribe (s : WalletEmitters) : WalletEmitters :=
  { wallet :=
      ((s.wallet.on "reload-data" swlReloadDataAnon).on "update-tx" swlUpdateTxAnon).on
        "new-tx" swlNewTxAnon
    conn :=
      ((s.conn.on "best-block-update" swlBestBlockAnon).on
        "wallet-load-partial-update" swlPartialAnon).on "state" swlConnStateAnon }

/-- The unsubscribe function returned by `setupWalletListeners`'s channel
subscriber: six `removeListener` calls, each passing the `listener` binding
(identity `0`), in source order. -/
def setupWalletListenersUnsubscribe (s : WalletEmitters) : WalletEmitters :=
  { conn :=
      ((s.conn.removeListener "best-block-update" swlListener).removeListener
        "wallet-load-partial-update" swlListener).removeListener "state" swlListener
    wallet :=
      ((s.wallet.removeListener "reload-data" swlListener).removeListener
        "update-tx" swlListener).removeListener "new-tx" swlListener }

/-- Cancelling the event-bridge task runs its `finally` block, which closes
the channel, which runs the unsubscribe function once. -/
def setupWalletListenersCancel (s : WalletEmitters) : WalletEmitters :=
  setupWalletListenersUnsubscribe s

/-! Function identities for `listenForWalletReady`'s channel: `listener` is
`0`, the anonymous `(state) => emitter(state)` actually registered on the
`state` event is `1`. -/

def lwrListener : Nat := 0
def lwrStateAnon : Nat := 1

/-- The subscriber of `listenForWalletReady`'s channel: one `on('state', ...)`
registration of the anonymous arrow function. -/
def listenForWalletReadySubscribe (wallet : Emitter) : Emitter :=
  wallet.on "state" lwrStateAnon

/-- The unsubscribe function of `listenForWalletReady`'s channel:
`wallet.removeListener('state', listener)` with the `listener` binding. -/
def listenForWalletReadyCancel (wallet : Emitter) : Emitter :=
  wallet.removeListener "state" lwrListener

/-! Function identities for `listenForFeatureFlags`'s channel: `listener` is
`0`, the anonymous `(state) => { emitter(state); }` registered on the
wallet-service-enabled event is `1`. -/

def lffListener : Nat := 0
def lffEnabledAnon : Nat := 1

/-- Models `FeatureFlagEvents.WALLET_SERVICE_ENABLED`, the event name used by
the feature-flag provider. -/
def WALLET_SERVICE_ENABLED : String := "wallet-service-enabled"

/-- The subscriber of `listenForFeatureFlags`'s channel. -/
def listenForFeatureFlagsSubscribe (ff : Emitter) : Emitter :=
  ff.on WALLET_SERVICE_ENABLED lffEnabledAnon

/-- The unsubscribe function of `listenForFeatureFlags`'s channel:
`featureFlags.removeListener('wallet-service-enabled', listener)`. -/
def listenForFeatureFlagsCancel (ff : Emitter) : Emitter :=
  ff.removeListener "wallet-service-enabled" lffListener

/-! ## Readiness watcher (`listenForWalletReady`) -/

/-- A message taken from the `state` channel: either the facade's error state
(`HathorWallet.ERROR`) or any other state value. -/
inductive WalletStateMsg where
  | errorState
  | other
  deriving DecidableEq, Repr

/-- The body of `listenForWalletReady`'s `while (true)` loop, run over the
sequence of state messages the channel delivers; each message is paired with
the value `wallet.isReady()` returns at the moment the message is handled.
On the error state the saga puts `walletStateError` and cancels itself; on
any other state it puts `walletStateReady` and cancels itself when the facade
reports ready, and otherwise keeps waiting. -/
def listenForWalletReadyLoop : List (WalletStateMsg × Bool) → List Effect
  | [] => []
  | (m, ready) :: rest =>
    match m with
    | WalletStateMsg.errorState => [Effect.walletStateError]
    | WalletStateMsg.other =>
      if ready then [Effect.walletStateReady] else listenForWalletReadyLoop rest

/-! ## Feature-flag watcher (`listenForFeatureFlags`) -/

/-- JavaScript truthiness of the `state.useWalletService` slice (which is
`undefined` before it is first recorded, a boolean afterwards). -/
def jsTruthy : Option Bool → Bool
  | some b => b
  | none => false

/-- One iteration of `listenForFeatureFlags`'s loop: take the new flag value
from the channel, select the previously recorded value, and put
`reloadWalletRequested` exactly when the old value is truthy and differs from
the new one. -/
def featureFlagStep (oldUseWalletService : Option Bool) (newUseWalletService : Bool) :
    List Effect :=
  if jsTruthy oldUseWalletService && (oldUseWalletService != some newUseWalletService) then
    [Effect.reloadWalletRequested]
  else
    []

/-- The watcher's loop over a finite sequence of change events, each paired
with the flag value recorded in the store at the instant it is handled. -/
def listenForFeatureFlagsLoop : List (Option Bool × Bool) → List Effect
  | [] => []
  | (o, n) :: rest => featureFlagStep o n ++ listenForFeatureFlagsLoop rest

/-! ## Metadata sub-task (`fetchTokensMetadata`) -/

/-- The response matched by the `take` for one token: a
`TOKEN_FETCH_METADATA_SUCCESS` carrying `data` (`none` models a `null`
payload, i.e. no metadata exists) or a `TOKEN_FETCH_METADATA_FAILED`. -/
inductive MetaResponse where
  | success (data : Option String)
  | failed
  deriving DecidableEq, Repr

/-- The aggregation loop `for (const response of responses)`: failures push
the token id onto the error list, successes with non-null data record the
data under the token id, successes with null data are dropped.  Output order
follows response order. -/
def aggregateMetadata : List (TokenId × MetaResponse) → List (TokenId × String) × List TokenId
  | [] => ([], [])
  | (t, r) :: rest =>
    let acc := aggregateMetadata rest
    match r with
    | MetaResponse.failed => (acc.1, t :: acc.2)
    | MetaResponse.success none => acc
    | MetaResponse.success (some d) => ((t, d) :: acc.1, acc.2)

/-- The `fetchTokensMetadata` saga: with no tokens it immediately puts
`metadataLoaded(true)` and returns; otherwise it puts `metadataLoaded(false)`,
puts one `TOKEN_FETCH_METADATA_REQUESTED` per token, waits for one
success-or-failure response per token (given here by `resp`), aggregates, and
puts one `tokenMetadataUpdated` with the success map and failure list. -/
def fetchTokensMetadata (tokens : List TokenId) (resp : TokenId → MetaResponse) :
    List Effect :=
  if tokens.isEmpty then
    [Effect.metadataLoaded true]
  else
    let agg := aggregateMetadata (tokens.map fun t => (t, resp t))
    Effect.metadataLoaded false ::
      (tokens.map Effect.tokenFetchMetadataRequested ++
        [Effect.tokenMetadataUpdated agg.1 agg.2])

/-! ## Transaction event handler (`handleTx`) -/

/-- A transaction as `handleTx` reads it: the token uid of each output and of
each input. -/
structure Tx where
  outputs : List TokenId
  inputs : List TokenId
  deriving DecidableEq, Repr

/-- `Set.prototype.add`: JavaScript sets keep insertion order and ignore
duplicates. -/
def insertUniq (l : List TokenId) (t : TokenId) : List TokenId :=
  if t ∈ l then l else l ++ [t]

/-- The affected-token set built by `handleTx`: outputs first, then inputs,
deduplicated in insertion order. -/
def affectedTokens (tx : Tx) : List TokenId :=
  (tx.outputs ++ tx.inputs).foldl insertUniq []

/-- The store and facade state `handleTx` reads. -/
structure HandleTxEnv where
  walletReady : Bool
  registeredTokens : List TokenId
  currentAddress : String × Nat
  isBlock : Bool
  deriving Repr

/-- The `handleTx` saga: if the facade is not ready the event is dropped with
no effect; otherwise it sends a best-effort notification, puts one
`sharedAddressUpdate` from the facade's current address, and for each
affected token that is registered puts a forced balance refetch and a forced
history refetch. -/
def handleTx (env : HandleTxEnv) (tx : Tx) : List Effect :=
  if !env.walletReady then
    []
  else
    Effect.notifySend env.isBlock ::
      Effect.sharedAddressUpdate env.currentAddress.1 env.currentAddress.2 ::
      (affectedTokens tx).flatMap fun t =>
        if t ∈ env.registeredTokens then
          [Effect.tokenFetchBalanceRequested t true, Effect.tokenFetchHistoryRequested t true]
        else
          []

/-! ## Best-block handler (`bestBlockUpdate`) -/

/-- The `bestBlockUpdate` saga: drop the message when the facade is not
ready; otherwise put one balance refetch for the base-currency token exactly
when the reported height differs from `state.height`. -/
def bestBlockUpdate (currentHeight : Nat) (walletReady : Bool) (payload : Nat) :
    List Effect :=
  if !walletReady then
    []
  else if currentHeight != payload then
    [Effect.tokenFetchBalanceRequested htrUid false]
  else
    []

/-! ## Token loader (`loadTokens`) -/

/-- The `loadTokens` saga.  It first `call`s `fetchTokenData` on the HTR uid
(blocking; `htrFetchOk = false` models that call throwing), then `call`s
`wallet.getTokens()` (an `Except.error` models a rejection), computes the
registered-minus-HTR subset, `spawn`s the detached metadata sub-task, and
puts one (non-forced) balance-fetch request per token of the full set.
Returns the effects emitted up to the point of return or throw, and either
the thrown error or the full token set. -/
def loadTokens (htrFetchOk : Bool) (getTokensResult : Except Unit (List TokenId))
    (registeredTokens : List TokenId) : List Effect × Except Unit (List TokenId) :=
  let e0 := [Effect.callFetchTokenData htrUid]
  if !htrFetchOk then
    (e0, Except.error ())
  else
    match getTokensResult with
    | Except.error _ => (e0, Except.error ())
    | Except.ok allTokens =>
      let registeredMinusHtr := registeredTokens.filter fun t => t != htrUid
      (e0 ++
        (Effect.spawnFetchTokensMetadata registeredMinusHtr ::
          allTokens.map fun t => Effect.tokenFetchBalanceRequested t false),
       Except.ok allTokens)

/-! ## Feature-flag collaborator (backend-kind decision) -/

/-- Modelled from the spec: the `FeatureFlags` module (`../featureFlags`) is
repository code outside `src/`.  Per the spec, `ignoreWalletServiceFlag()`
records a persistent "ignore remote service" decision and
`shouldUseWalletService()` answers remote-service eligibility, resolving to
`Local` (false) once the ignore decision has been recorded. -/
def shouldUseWalletService (ffIgnored ffFlagValue : Bool) : Bool :=
  !ffIgnored && ffFlagValue

/-! ## Lifecycle orchestrator (`startWallet`) -/

/-- The `serverInfo` object returned by a successful `wallet.start` call. -/
structure ServerInfo where
  version : String
  network : String
  deriving DecidableEq, Repr

/-- The inputs of one `startWallet` run: the store/collaborator state it
reads and the outcome of each external blocking step.  `ffIgnored` is the
persistent ignore-remote-service decision, `ffFlagValue` the raw
remote-eligibility flag; `startResult` is the outcome of `wallet.start`
(`Except.error` models the call throwing); `readyAfterStart` is
`wallet.isReady()` right after start; `raceError` tells which of
`WALLET_STATE_READY` / `WALLET_STATE_ERROR` wins the race when the facade is
not yet ready; `htrFetchOk`, `getTokensResult` and `registeredTokens` feed
`loadTokens`; `finalReload` tells whether the final parked race is won by
`RELOAD_WALLET_REQUESTED` (true) or by a new `START_WALLET_REQUESTED`. -/
structure StartIn where
  hardwareWallet : Bool
  ffIgnored : Bool
  ffFlagValue : Bool
  networkName : String
  startResult : Except Unit (Option ServerInfo)
  readyAfterStart : Bool
  raceError : Bool
  htrFetchOk : Bool
  getTokensResult : Except Unit (List TokenId)
  registeredTokens : List TokenId
  finalReload : Bool
  deriving Repr

/-- Backend-kind decision of a run: hardware-key sessions always resolve to
the old facade; otherwise `featureFlags.shouldUseWalletService()` decides. -/
def useWalletServiceOf (s : StartIn) : Bool :=
  if s.hardwareWallet then false else shouldUseWalletService s.ffIgnored s.ffFlagValue

/-- Effects of `startWallet` from the token-loading step on (the second
`try`): `loadTokens` followed, on success, by `loadWalletSuccess`, the
navigation to the wallet screen, clearing the loading flag, the parked race,
thread cancellation, and — on a reload request — the re-dispatch of the
original action; on a `loadTokens` throw, `startWalletFailed` and thread
cancellation. -/
def startWalletLoadPhase (s : StartIn) : List Effect :=
  let load := loadTokens s.htrFetchOk s.getTokensResult s.registeredTokens
  match load.2 with
  | Except.error _ => load.1 ++ [Effect.startWalletFailed, Effect.cancelThreads]
  | Except.ok allTokens =>
    load.1 ++
      [Effect.loadWalletSuccess allTokens, Effect.routerReplace "/wallet/",
        Effect.loadingAddresses false, Effect.cancelThreads] ++
      if s.finalReload then [Effect.redispatchStartAction] else []

/-- Effects of `startWallet` after the start `try`/`catch`: navigate to the
loading screen, then — unless the facade already reports ready — race the
ready signal against the error signal, failing the session on error;
otherwise run the load phase. -/
def startWalletAfterStart (s : StartIn) : List Effect :=
  Effect.routerReplace "/loading_addresses" ::
    if s.readyAfterStart then
      startWalletLoadPhase s
    else
      Effect.raceReadyOrError ::
        if s.raceError then
          [Effect.startWalletFailed, Effect.cancelThreads]
        else
          startWalletLoadPhase s

/-- The `startWallet` saga.  The initial effects up to the three forks are
unconditional; then `wallet.start` is called inside a `try`.  On success its
`serverInfo` is stored (defaulting the network name when the backend omits
the object).  On a throw, the `catch` block distinguishes the backend kind:
with the wallet service it records the ignore decision, cancels the thread
group, re-dispatches the original action and returns; with the old facade
the `catch` block does nothing, so the failure is swallowed and execution
continues after the `try`.  `startWalletPre` is the unconditional prefix of
effects up to (and including) the three forks. -/
def startWalletPre (s : StartIn) : List Effect :=
  [Effect.loadingAddresses true, Effect.storeRouterHistory, Effect.reloadData,
    Effect.isOnlineUpdate false, Effect.setUseWalletService (useWalletServiceOf s),
    Effect.setWallet, Effect.forkSetupWalletListeners, Effect.forkListenForWalletReady,
    Effect.forkListenForFeatureFlags]

/-- The `startWallet` saga: the unconditional prefix, then the start
`try`/`catch` and, unless the remote-service fallback returned early, the
rest of the run. -/
def startWallet (s : StartIn) : List Effect :=
  match s.startResult with
  | Except.error _ =>
    if useWalletServiceOf s then
      startWalletPre s ++
        [Effect.callIgnoreWalletServiceFlag, Effect.cancelThreads,
          Effect.redispatchStartAction]
    else
      startWalletPre s ++ startWalletAfterStart s
  | Except.ok serverInfo =>
    let info :=
      match serverInfo with
      | some si => Effect.setServerInfo (some si.version) si.network
      | none => Effect.setServerInfo none s.networkName
    startWalletPre s ++ (info :: startWalletAfterStart s)

/-- The persistent ignore-remote-service decision after one `startWallet`
run: it is recorded exactly on the remote-service start-failure path. -/
def ffIgnoredAfter (s : StartIn) : Bool :=
  s.ffIgnored ||
    (match s.startResult with
     | Except.error _ => useWalletServiceOf s
     | Except.ok _ => false)

/-! ## Reload coordinator (`walletReloading`) -/

/-- The inputs of one `walletReloading` run: the `useWalletService` slice,
the `loadTokens` outcomes, and whether the `wallet.getNewAddresses()` call
succeeds (it sits inside the same `try`). -/
structure ReloadIn where
  useWalletService : Bool
  htrFetchOk : Bool
  getTokensResult : Except Unit (List TokenId)
  registeredTokens : List TokenId
  getNewAddressesOk : Bool
  deriving Repr

/-- The `walletReloading` saga: set the loading flag; when on the old facade,
fork a fresh readiness watcher and block on `WALLET_STATE_READY`; then, in a
`try`, run `loadTokens`, put one history invalidation per non-HTR token of
the full set, refresh the facade's internal addresses when on the wallet
service, put the shared-address refresh request and `loadWalletSuccess`,
navigate back to the wallet screen and clear the loading flag.  Any throw in
the `try` puts `startWalletFailed` and returns. -/
def walletReloading (r : ReloadIn) : List Effect :=
  let pre :=
    Effect.loadingAddresses true ::
      if !r.useWalletService then
        [Effect.forkListenForWalletReady, Effect.takeWalletStateReady]
      else
        []
  let load := loadTokens r.htrFetchOk r.getTokensResult r.registeredTokens
  match load.2 with
  | Except.error _ => pre ++ load.1 ++ [Effect.startWalletFailed]
  | Except.ok allTokens =>
    let inval :=
      (allTokens.filter fun t => t != htrUid).map Effect.tokenInvalidateHistory
    if r.useWalletService && !r.getNewAddressesOk then
      pre ++ load.1 ++ inval ++ [Effect.callGetNewAddresses, Effect.startWalletFailed]
    else
      pre ++ load.1 ++ inval ++
        (if r.useWalletService then [Effect.callGetNewAddresses] else []) ++
        [Effect.walletRefreshSharedAddress, Effect.loadWalletSuccess allTokens,
          Effect.routerReplace "/wallet/", Effect.loadingAddresses false]

/-! ## Loading-flag tracking (for the frame property) -/

/-- The value of the loading-in-progress flag after a run, obtained by
folding the run's `loadingAddresses` puts over an initial flag value. -/
def loadingFlagAfter (effects : List Effect) (init : Option Bool) : Option Bool :=
  effects.foldl
    (fun acc e =>
      match e with
      | Effect.loadingAddresses b => some b
      | _ => acc)
    init

/-! ## Theorems -/

/-- C1: the claim states that cancelling the thread group removes every
event-listener registration the listener tasks installed.  The code does
not: each channel's unsubscribe function calls `removeListener` with the
`listener` binding, a function that was never passed to `on` (fresh anonymous
closures were registered instead), so under EventEmitter semantics the
cleanup removes nothing — after cancellation every installed listener is
still registered, on the wallet facade, the connection and the feature-flag
provider alike.  This theorem evaluates the three subscribe/cancel pairs on
fresh emitters: cancellation leaves each emitter state unchanged while the
installed registrations are present. -/
theorem C1_cancellation_removes_no_installed_listener :
    (setupWalletListenersCancel (setupWalletListenersSubscribe ⟨⟨[]⟩, ⟨[]⟩⟩)
        = setupWalletListenersSubscribe ⟨⟨[]⟩, ⟨[]⟩⟩
      ∧ (setupWalletListenersSubscribe ⟨⟨[]⟩, ⟨[]⟩⟩).wallet.listeners
          = [("reload-data", swlReloadDataAnon), ("update-tx", swlUpdateTxAnon),
              ("new-tx", swlNewTxAnon)]
      ∧ (setupWalletListenersSubscribe ⟨⟨[]⟩, ⟨[]⟩⟩).conn.listeners
          = [("best-block-update", swlBestBlockAnon),
              ("wallet-load-partial-update", swlPartialAnon),
              ("state", swlConnStateAnon)])
    ∧ (listenForWalletReadyCancel (listenForWalletReadySubscribe ⟨[]⟩)
        = listenForWalletReadySubscribe ⟨[]⟩
      ∧ (listenForWalletReadySubscribe ⟨[]⟩).listeners = [("state", lwrStateAnon)])
    ∧ (listenForFeatureFlagsCancel (listenForFeatureFlagsSubscribe ⟨[]⟩)
        = listenForFeatureFlagsSubscribe ⟨[]⟩
      ∧ (listenForFeatureFlagsSubscribe ⟨[]⟩).listeners
          = [(WALLET_SERVICE_ENABLED, lffEnabledAnon)]) := by
  decide

/-- C4: on every sequence of state events, the readiness watcher emits at
most one terminal status message — never both ready and error — and stops
after emitting it; a ready status is emitted only when some non-error state
event found the facade's own readiness predicate true. -/
theorem C4_readiness_watcher_single_terminal (evs : List (WalletStateMsg × Bool)) :
    (listenForWalletReadyLoop evs = [] ∨
      listenForWalletReadyLoop evs = [Effect.walletStateError] ∨
      listenForWalletReadyLoop evs = [Effect.walletStateReady]) ∧
    (Effect.walletStateReady ∈ listenForWalletReadyLoop evs →
      ∃ p ∈ evs, p.1 = WalletStateMsg.other ∧ p.2 = true) ∧
    ¬ (Effect.walletStateReady ∈ listenForWalletReadyLoop evs ∧
        Effect.walletStateError ∈ listenForWalletReadyLoop evs) := by
  induction evs with
  | nil => refine ⟨Or.inl rfl, ?_, ?_⟩ <;> simp [listenForWalletReadyLoop]
  | cons hd tl ih =>
    obtain ⟨m, ready⟩ := hd
    cases m with
    | errorState =>
      refine ⟨Or.inr (Or.inl rfl), ?_, ?_⟩ <;> simp [listenForWalletReadyLoop]
    | other =>
      cases ready with
      | true =>
        refine ⟨Or.inr (Or.inr ?_), ?_, ?_⟩
        · simp [listenForWalletReadyLoop]
        · intro _
          exact ⟨(WalletStateMsg.other, true), by simp, rfl, rfl⟩
        · simp [listenForWalletReadyLoop]
      | false =>
        have hloop : listenForWalletReadyLoop ((WalletStateMsg.other, false) :: tl)
            = listenForWalletReadyLoop tl := by
          simp [listenForWalletReadyLoop]
        refine ⟨?_, ?_, ?_⟩
        · rw [hloop]; exact ih.1
        · intro hm
          obtain ⟨p, hp, hw⟩ := ih.2.1 (by rwa [hloop] at hm)
          exact ⟨p, List.mem_cons_of_mem _ hp, hw⟩
        · rw [hloop]; exact ih.2.2

/-- Witness for C4 at a concrete event sequence. -/
theorem C4_readiness_watcher_single_terminal_witness :
    listenForWalletReadyLoop [(WalletStateMsg.other, false), (WalletStateMsg.other, true)]
        = [] ∨
      listenForWalletReadyLoop [(WalletStateMsg.other, false), (WalletStateMsg.other, true)]
        = [Effect.walletStateError] ∨
      listenForWalletReadyLoop [(WalletStateMsg.other, false), (WalletStateMsg.other, true)]
        = [Effect.walletStateReady] :=
  (C4_readiness_watcher_single_terminal
    [(WalletStateMsg.other, false), (WalletStateMsg.other, true)]).1

/-- Helper for C6: the reload count over a run of the feature-flag loop is
the number of qualifying change events. -/
theorem listenForFeatureFlagsLoop_count (evs : List (Option Bool × Bool)) :
    (listenForFeatureFlagsLoop evs).count Effect.reloadWalletRequested
      = (evs.filter fun e => jsTruthy e.1 && (e.1 != some e.2)).length := by
  induction evs with
  | nil => rfl
  | cons hd tl ih =>
    obtain ⟨o, n⟩ := hd
    by_cases h : (jsTruthy o && (o != some n)) = true
    · simp [listenForFeatureFlagsLoop, featureFlagStep, h, List.count_cons, ih]
    · simp [listenForFeatureFlagsLoop, featureFlagStep, h, ih]

/-- C6: a change event triggers a reload request iff a backend-selection
flag value was previously recorded, that value is truthy, and it differs
from the new value; one qualifying event emits exactly one reload request,
an unrecorded prior value never triggers one, and over a whole run of the
watcher the number of reload requests equals the number of qualifying
events. -/
theorem C6_feature_flag_flip (oldV : Option Bool) (newV : Bool)
    (evs : List (Option Bool × Bool)) :
    (featureFlagStep oldV newV = [Effect.reloadWalletRequested] ↔
      ∃ b, oldV = some b ∧ b = true ∧ b ≠ newV) ∧
    (featureFlagStep oldV newV = [Effect.reloadWalletRequested] ∨
      featureFlagStep oldV newV = []) ∧
    (oldV = none → featureFlagStep oldV newV = []) ∧
    featureFlagStep (some true) false = [Effect.reloadWalletRequested] ∧
    (listenForFeatureFlagsLoop evs).count Effect.reloadWalletRequested
      = (evs.filter fun e => jsTruthy e.1 && (e.1 != some e.2)).length := by
  refine ⟨?_, ?_, ?_, by decide, listenForFeatureFlagsLoop_count evs⟩
  · cases oldV with
    | none => cases newV <;> simp [featureFlagStep, jsTruthy]
    | some b => cases b <;> cases newV <;> simp [featureFlagStep, jsTruthy]
  · cases oldV with
    | none => cases newV <;> simp [featureFlagStep, jsTruthy]
    | some b => cases b <;> cases newV <;> simp [featureFlagStep, jsTruthy]
  · rintro rfl
    cases newV <;> simp [featureFlagStep, jsTruthy]

/-- Witness for C6 at concrete values: prior value `true`, new value
`false`. -/
theorem C6_feature_flag_flip_witness :
    featureFlagStep (some true) false = [Effect.reloadWalletRequested] :=
  (C6_feature_flag_flip (some true) false []).2.2.2.1

/-- C8: a best-block message is ignored when the facade is not ready; an
unchanged height emits nothing; a changed height emits exactly one balance
refetch request, for the base-currency token only. -/
theorem C8_best_block_height (currentHeight payload : Nat) (ready : Bool) :
    (ready = false → bestBlockUpdate currentHeight ready payload = []) ∧
    (currentHeight = payload → bestBlockUpdate currentHeight ready payload = []) ∧
    (ready = true → currentHeight ≠ payload →
      bestBlockUpdate currentHeight ready payload
        = [Effect.tokenFetchBalanceRequested htrUid false]) := by
  refine ⟨?_, ?_, ?_⟩
  · rintro rfl; rfl
  · rintro rfl; cases ready <;> simp [bestBlockUpdate]
  · rintro rfl h
    simp [bestBlockUpdate, h]

/-- Witness for C8 at concrete heights 5 and 6 with a ready facade. -/
theorem C8_best_block_height_witness :
    bestBlockUpdate 5 true 6 = [Effect.tokenFetchBalanceRequested htrUid false] :=
  (C8_best_block_height 5 6 true).2.2 rfl (by decide)

/-- Helper for C5: occurrences of a token in the failure list equal its
occurrences in the token list when its response is a failure, and zero
otherwise. -/
theorem aggregateMetadata_errors_count (resp : TokenId → MetaResponse) (t : TokenId) :
    ∀ tokens : List TokenId,
      ((aggregateMetadata (tokens.map fun u => (u, resp u))).2).count t
        = if resp t = MetaResponse.failed then tokens.count t else 0 := by
  intro tokens
  induction tokens with
  | nil => simp [aggregateMetadata]
  | cons u rest ih =>
    by_cases ht : t = u
    · subst ht
      cases hr : resp t with
      | failed => simp [aggregateMetadata, hr, List.count_cons, ih]
      | success d =>
        cases d <;> simp [aggregateMetadata, hr, List.count_cons, ih]
    · have hne : ¬ (u = t) := fun h => ht h.symm
      cases hr : resp u with
      | failed => simp [aggregateMetadata, hr, List.count_cons, hne, ih]
      | success d =>
        cases d <;> simp [aggregateMetadata, hr, List.count_cons, hne, ih]

/-- Helper for C5: a pair belongs to the success map iff its token is in the
list and its response succeeded with exactly that (non-null) data. -/
theorem aggregateMetadata_metas_mem (resp : TokenId → MetaResponse) (t : TokenId)
    (d : String) :
    ∀ tokens : List TokenId,
      ((t, d) ∈ (aggregateMetadata (tokens.map fun u => (u, resp u))).1 ↔
        t ∈ tokens ∧ resp t = MetaResponse.success (some d)) := by
  intro tokens
  induction tokens with
  | nil => simp [aggregateMetadata]
  | cons u rest ih =>
    by_cases ht : t = u
    · subst ht
      cases hr : resp t with
      | failed => simp [aggregateMetadata, hr, ih]
      | success dd =>
        cases dd with
        | none => simp [aggregateMetadata, hr, ih]
        | some e =>
          have hgoal : (aggregateMetadata ((t :: rest).map fun u => (u, resp u))).1
              = (t, e) :: (aggregateMetadata (rest.map fun u => (u, resp u))).1 := by
            simp [aggregateMetadata, hr]
          rw [hgoal]
          constructor
          · intro hm
            rcases List.mem_cons.mp hm with hm | hm
            · have hde : e = d := by
                have := congrArg Prod.snd hm.symm
                simpa using this
              exact ⟨List.mem_cons_self _ _, by rw [hde]⟩
            · have h2 := (ih.mp hm).2
              rw [hr] at h2
              exact ⟨List.mem_cons_of_mem _ (ih.mp hm).1, h2⟩
          · rintro ⟨-, hd⟩
            have hde : e = d := by simpa using hd
            subst hde
            exact List.mem_cons_self _ _
    · have hne : ¬ (t = u) := ht
      cases hr : resp u with
      | failed => simp [aggregateMetadata, hr, ih, hne]
      | success dd =>
        cases dd with
        | none => simp [aggregateMetadata, hr, ih, hne]
        | some e => simp [aggregateMetadata, hr, ih, hne]

/-- The concrete response function of the spec's aggregation example: token
A succeeds with data, token B succeeds with null (no metadata), token C
fails. -/
def respABC : TokenId → MetaResponse := fun t =>
  if t = "A" then MetaResponse.success (some "dataA")
  else if t = "B" then MetaResponse.success none
  else MetaResponse.failed

/-- C5: in the metadata aggregation over a duplicate-free token list, each
failed token appears exactly once in the failure list, a pair belongs to the
success map iff the token succeeded with exactly that non-null data, a
token whose success carried null data lands in neither; an empty input makes
the sub-task emit only `metadataLoaded(true)` (no fetch requests); and the
spec's `[A, B, C]` example yields success map `[A ↦ dataA]` and failure list
`[C]`. -/
theorem C5_metadata_aggregation (tokens : List TokenId) (resp : TokenId → MetaResponse)
    (t : TokenId) (d : String) (hnd : tokens.Nodup) :
    (((aggregateMetadata (tokens.map fun u => (u, resp u))).2).count t
        = if t ∈ tokens ∧ resp t = MetaResponse.failed then 1 else 0) ∧
    ((t, d) ∈ (aggregateMetadata (tokens.map fun u => (u, resp u))).1 ↔
      t ∈ tokens ∧ resp t = MetaResponse.success (some d)) ∧
    (resp t = MetaResponse.success none →
      t ∉ (aggregateMetadata (tokens.map fun u => (u, resp u))).2 ∧
        ∀ e, (t, e) ∉ (aggregateMetadata (tokens.map fun u => (u, resp u))).1) ∧
    fetchTokensMetadata [] resp = [Effect.metadataLoaded true] ∧
    fetchTokensMetadata ["A", "B", "C"] respABC
      = [Effect.metadataLoaded false,
          Effect.tokenFetchMetadataRequested "A",
          Effect.tokenFetchMetadataRequested "B",
          Effect.tokenFetchMetadataRequested "C",
          Effect.tokenMetadataUpdated [("A", "dataA")] ["C"]] := by
  refine ⟨?_, aggregateMetadata_metas_mem resp t d tokens, ?_, rfl, by decide⟩
  · rw [aggregateMetadata_errors_count resp t tokens]
    by_cases hf : resp t = MetaResponse.failed
    · by_cases hm : t ∈ tokens
      · simp [hf, hm, List.count_eq_one_of_mem hnd hm]
      · simp [hf, hm, List.count_eq_zero_of_not_mem hm]
    · simp [hf]
  · intro hnone
    constructor
    · intro hmem
      have := aggregateMetadata_errors_count resp t tokens
      rw [hnone] at this
      simp at this
      exact (List.count_eq_zero.mp this) hmem
    · intro e hmem
      have := (aggregateMetadata_metas_mem resp t e tokens).mp hmem
      rw [hnone] at this
      exact absurd this.2 (by simp)

/-- Witness for C5 at the spec's concrete example. -/
theorem C5_metadata_aggregation_witness :
    fetchTokensMetadata ["A", "B", "C"] respABC
      = [Effect.metadataLoaded false,
          Effect.tokenFetchMetadataRequested "A",
          Effect.tokenFetchMetadataRequested "B",
          Effect.tokenFetchMetadataRequested "C",
          Effect.tokenMetadataUpdated [("A", "dataA")] ["C"]] :=
  (C5_metadata_aggregation ["A", "B", "C"] respABC "C" "dataA" (by decide)).2.2.2.2

/-- Helper for C7: membership in the insertion-ordered deduplication. -/
theorem foldl_insertUniq_mem (t : TokenId) :
    ∀ (l acc : List TokenId), (t ∈ l.foldl insertUniq acc ↔ t ∈ acc ∨ t ∈ l) := by
  intro l
  induction l with
  | nil => intro acc; simp
  | cons u rest ih =>
    intro acc
    rw [List.foldl_cons, ih]
    unfold insertUniq
    by_cases h : u ∈ acc
    · simp only [if_pos h, List.mem_cons]
      constructor
      · rintro (ha | hr)
        · exact Or.inl ha
        · exact Or.inr (Or.inr hr)
      · rintro (ha | rfl | hr)
        · exact Or.inl ha
        · exact Or.inl h
        · exact Or.inr hr
    · simp only [if_neg h, List.mem_append, List.mem_singleton, List.mem_cons]
      tauto

/-- Helper for C7: the insertion-ordered deduplication never holds
duplicates. -/
theorem foldl_insertUniq_nodup :
    ∀ (l acc : List TokenId), acc.Nodup → (l.foldl insertUniq acc).Nodup := by
  intro l
  induction l with
  | nil => intro acc h; simpa using h
  | cons u rest ih =>
    intro acc h
    rw [List.foldl_cons]
    apply ih
    unfold insertUniq
    by_cases hu : u ∈ acc
    · simpa [hu] using h
    · simp [hu, List.nodup_append, h]

/-- Helper for C7: the affected-token set of a transaction is duplicate-free
and holds exactly the tokens of the outputs and inputs. -/
theorem affectedTokens_spec (tx : Tx) (t : TokenId) :
    (t ∈ affectedTokens tx ↔ t ∈ tx.outputs ++ tx.inputs) ∧ (affectedTokens tx).Nodup := by
  constructor
  · rw [affectedTokens, foldl_insertUniq_mem]
    simp
  · exact foldl_insertUniq_nodup _ _ List.nodup_nil

/-- Helper for C7: occurrences of a forced balance-refetch request in the
per-token refetch loop of `handleTx`. -/
theorem txLoop_count_balance (registered : List TokenId) (t : TokenId) :
    ∀ affected : List TokenId, affected.Nodup →
      ((affected.flatMap fun u =>
          if u ∈ registered then
            [Effect.tokenFetchBalanceRequested u true,
              Effect.tokenFetchHistoryRequested u true]
          else []).count (Effect.tokenFetchBalanceRequested t true))
        = if t ∈ affected ∧ t ∈ registered then 1 else 0 := by
  intro affected
  induction affected with
  | nil => intro _; simp
  | cons u rest ih =>
    intro hnd
    rw [List.flatMap_cons, List.count_append]
    have hrest := ih (List.Nodup.of_cons hnd)
    by_cases ht : t = u
    · subst ht
      have htr : t ∉ rest := (List.nodup_cons.mp hnd).1
      by_cases hreg : t ∈ registered
      · simp [hreg, hrest, htr, List.count_cons]
      · simp [hreg, hrest, htr]
    · have hne : ¬ (u = t) := fun h => ht h.symm
      by_cases hreg : u ∈ registered
      · simp [hreg, hrest, List.count_cons, hne, ht]
      · simp [hreg, hrest, ht]

/-- Helper for C7: occurrences of a forced history-refetch request in the
per-token refetch loop of `handleTx`. -/
theorem txLoop_count_history (registered : List TokenId) (t : TokenId) :
    ∀ affected : List TokenId, affected.Nodup →
      ((affected.flatMap fun u =>
          if u ∈ registered then
            [Effect.tokenFetchBalanceRequested u true,
              Effect.tokenFetchHistoryRequested u true]
          else []).count (Effect.tokenFetchHistoryRequested t true))
        = if t ∈ affected ∧ t ∈ registered then 1 else 0 := by
  intro affected
  induction affected with
  | nil => intro _; simp
  | cons u rest ih =>
    intro hnd
    rw [List.flatMap_cons, List.count_append]
    have hrest := ih (List.Nodup.of_cons hnd)
    by_cases ht : t = u
    · subst ht
      have htr : t ∉ rest := (List.nodup_cons.mp hnd).1
      by_cases hreg : t ∈ registered
      · simp [hreg, hrest, htr, List.count_cons]
      · simp [hreg, hrest, htr]
    · have hne : ¬ (u = t) := fun h => ht h.symm
      by_cases hreg : u ∈ registered
      · simp [hreg, hrest, List.count_cons, hne, ht]
      · simp [hreg, hrest, ht]

/-- C7: a transaction event is dropped entirely when the facade is not
ready; otherwise the handler puts the shared-address update from the
facade's current address, and puts exactly one forced balance refetch and
one forced history refetch per affected token that is registered — none for
unregistered affected tokens.  The concrete instance: a transaction touching
`[HTR, X]` with only `X` registered yields refetch requests for `X` only. -/
theorem C7_transaction_refetch (env : HandleTxEnv) (tx : Tx) (t : TokenId) :
    (env.walletReady = false → handleTx env tx = []) ∧
    (env.walletReady = true →
      Effect.sharedAddressUpdate env.currentAddress.1 env.currentAddress.2
        ∈ handleTx env tx) ∧
    (env.walletReady = true →
      (handleTx env tx).count (Effect.tokenFetchBalanceRequested t true)
        = if t ∈ tx.outputs ++ tx.inputs ∧ t ∈ env.registeredTokens then 1 else 0) ∧
    (env.walletReady = true →
      (handleTx env tx).count (Effect.tokenFetchHistoryRequested t true)
        = if t ∈ tx.outputs ++ tx.inputs ∧ t ∈ env.registeredTokens then 1 else 0) ∧
    handleTx ⟨true, ["X"], ("addr", 0), false⟩ ⟨[htrUid, "X"], []⟩
      = [Effect.notifySend false, Effect.sharedAddressUpdate "addr" 0,
          Effect.tokenFetchBalanceRequested "X" true,
          Effect.tokenFetchHistoryRequested "X" true] := by
  have hmem := (affectedTokens_spec tx t).1
  have hnd := (affectedTokens_spec tx t).2
  refine ⟨?_, ?_, ?_, ?_, by decide⟩
  · intro h; simp [handleTx, h]
  · intro h; simp [handleTx, h]
  · intro h
    rw [handleTx]
    simp only [h, Bool.not_true, Bool.false_eq_true, if_false, List.count_cons]
    rw [txLoop_count_balance env.registeredTokens t (affectedTokens tx) hnd]
    simp [hmem]
  · intro h
    rw [handleTx]
    simp only [h, Bool.not_true, Bool.false_eq_true, if_false, List.count_cons]
    rw [txLoop_count_history env.registeredTokens t (affectedTokens tx) hnd]
    simp [hmem]

/-- Witness for C7 at the spec's concrete instance. -/
theorem C7_transaction_refetch_witness :
    handleTx ⟨true, ["X"], ("addr", 0), false⟩ ⟨[htrUid, "X"], []⟩
      = [Effect.notifySend false, Effect.sharedAddressUpdate "addr" 0,
          Effect.tokenFetchBalanceRequested "X" true,
          Effect.tokenFetchHistoryRequested "X" true] :=
  (C7_transaction_refetch ⟨true, ["X"], ("addr", 0), false⟩ ⟨[htrUid, "X"], []⟩
    "X").2.2.2.2

/-- Helper: every effect emitted by `loadTokens` is the HTR fetch call, the
metadata spawn, or a non-forced balance request. -/
theorem mem_loadTokens_fst (h : Bool) (g : Except Unit (List TokenId))
    (reg : List TokenId) (e : Effect) (he : e ∈ (loadTokens h g reg).1) :
    e = Effect.callFetchTokenData htrUid ∨
      (∃ ts, e = Effect.spawnFetchTokensMetadata ts) ∨
      ∃ u, e = Effect.tokenFetchBalanceRequested u false := by
  cases h with
  | false =>
    simp [loadTokens] at he
    exact Or.inl he
  | true =>
    cases g with
    | error u =>
      simp [loadTokens] at he
      exact Or.inl he
    | ok allTokens =>
      simp [loadTokens] at he
      rcases he with he | he | ⟨u, _, he⟩
      · exact Or.inl he
      · exact Or.inr (Or.inl ⟨_, he⟩)
      · exact Or.inr (Or.inr ⟨u, he.symm⟩)

/-- Helper: an effect that is none of `loadTokens`'s three effect shapes does
not occur in its output. -/
theorem not_mem_loadTokens (h : Bool) (g : Except Unit (List TokenId))
    (reg : List TokenId) (e : Effect)
    (h1 : e ≠ Effect.callFetchTokenData htrUid)
    (h2 : ∀ ts, e ≠ Effect.spawnFetchTokensMetadata ts)
    (h3 : ∀ u, e ≠ Effect.tokenFetchBalanceRequested u false) :
    e ∉ (loadTokens h g reg).1 := by
  intro hm
  rcases mem_loadTokens_fst h g reg e hm with hh | ⟨ts, hh⟩ | ⟨u, hh⟩
  · exact h1 hh
  · exact h2 ts hh
  · exact h3 u hh

/-- Helper: every effect of the load phase of `startWallet` (the second
`try`) is a `loadTokens` effect or one of its own six effect shapes. -/
theorem mem_loadPhase (s : StartIn) (e : Effect) (he : e ∈ startWalletLoadPhase s) :
    e ∈ (loadTokens s.htrFetchOk s.getTokensResult s.registeredTokens).1 ∨
      e = Effect.startWalletFailed ∨ e = Effect.cancelThreads ∨
      (∃ ts, e = Effect.loadWalletSuccess ts) ∨ e = Effect.routerReplace "/wallet/" ∨
      e = Effect.loadingAddresses false ∨ e = Effect.redispatchStartAction := by
  unfold startWalletLoadPhase at he
  rcases hres : (loadTokens s.htrFetchOk s.getTokensResult s.registeredTokens).2 with u | ts
  · simp [hres] at he
    tauto
  · cases s.finalReload with
    | false => simp [hres] at he; tauto
    | true => simp [hres] at he; tauto

/-- Helper: every effect past the start `try`/`catch` is the loading-screen
navigation, the readiness race, its failure pair, or a load-phase effect. -/
theorem mem_afterStart (s : StartIn) (e : Effect) (he : e ∈ startWalletAfterStart s) :
    e = Effect.routerReplace "/loading_addresses" ∨ e = Effect.raceReadyOrError ∨
      e = Effect.startWalletFailed ∨ e = Effect.cancelThreads ∨
      e ∈ startWalletLoadPhase s := by
  unfold startWalletAfterStart at he
  cases hra : s.readyAfterStart with
  | true => simp [hra] at he; tauto
  | false =>
    cases hre : s.raceError with
    | true => simp [hra, hre] at he; tauto
    | false => simp [hra, hre] at he; tauto

/-- Helper: the remote-fallback decision effect never occurs after the start
`try`/`catch` (it belongs exclusively to the catch block). -/
theorem ignore_not_mem_afterStart (s : StartIn) :
    Effect.callIgnoreWalletServiceFlag ∉ startWalletAfterStart s := by
  intro hm
  rcases mem_afterStart s _ hm with h | h | h | h | h
  · simp at h
  · simp at h
  · simp at h
  · simp at h
  · rcases mem_loadPhase s _ h with h | h | h | ⟨ts, h⟩ | h | h | h
    · rcases mem_loadTokens_fst _ _ _ _ h with h | ⟨us, h⟩ | ⟨u, h⟩ <;> simp at h
    · simp at h
    · simp at h
    · simp at h
    · simp at h
    · simp at h
    · simp at h

/-- Helper: the load phase when `loadTokens` throws. -/
theorem loadPhase_loadfail (s : StartIn)
    (hlf : (loadTokens s.htrFetchOk s.getTokensResult s.registeredTokens).2
        = Except.error ()) :
    startWalletLoadPhase s
      = (loadTokens s.htrFetchOk s.getTokensResult s.registeredTokens).1 ++
          [Effect.startWalletFailed, Effect.cancelThreads] := by
  unfold startWalletLoadPhase
  simp [hlf]

/-- Helper: the load phase when `loadTokens` returns the full token set. -/
theorem loadPhase_loadok (s : StartIn) (ts : List TokenId)
    (hok : (loadTokens s.htrFetchOk s.getTokensResult s.registeredTokens).2
        = Except.ok ts) :
    startWalletLoadPhase s
      = (loadTokens s.htrFetchOk s.getTokensResult s.registeredTokens).1 ++
          [Effect.loadWalletSuccess ts, Effect.routerReplace "/wallet/",
            Effect.loadingAddresses false, Effect.cancelThreads] ++
          (if s.finalReload then [Effect.redispatchStartAction] else []) := by
  unfold startWalletLoadPhase
  simp [hok]

/-- Helper: after the start call, with the facade already ready. -/
theorem afterStart_eq_ready (s : StartIn) (h : s.readyAfterStart = true) :
    startWalletAfterStart s
      = Effect.routerReplace "/loading_addresses" :: startWalletLoadPhase s := by
  unfold startWalletAfterStart
  simp [h]

/-- Helper: after the start call, when the readiness race ends in the error
signal. -/
theorem afterStart_eq_raceerr (s : StartIn) (h1 : s.readyAfterStart = false)
    (h2 : s.raceError = true) :
    startWalletAfterStart s
      = [Effect.routerReplace "/loading_addresses", Effect.raceReadyOrError,
          Effect.startWalletFailed, Effect.cancelThreads] := by
  unfold startWalletAfterStart
  simp [h1, h2]

/-- Helper: after the start call, when the readiness race ends in the ready
signal. -/
theorem afterStart_eq_raceok (s : StartIn) (h1 : s.readyAfterStart = false)
    (h2 : s.raceError = false) :
    startWalletAfterStart s
      = [Effect.routerReplace "/loading_addresses", Effect.raceReadyOrError] ++
          startWalletLoadPhase s := by
  unfold startWalletAfterStart
  simp [h1, h2]

/-- The `setServerInfo` effect of a successful start. -/
def serverInfoEffect (si : Option ServerInfo) (networkName : String) : Effect :=
  match si with
  | some i => Effect.setServerInfo (some i.version) i.network
  | none => Effect.setServerInfo none networkName

/-- Helper: the whole run when the start call throws on the old facade. -/
theorem startWallet_eq_err_local (s : StartIn) (h : s.startResult = Except.error ())
    (huws : useWalletServiceOf s = false) :
    startWallet s = startWalletPre s ++ startWalletAfterStart s := by
  unfold startWallet
  simp [h, huws]

/-- Helper: the whole run when the start call returns. -/
theorem startWallet_eq_ok (s : StartIn) (si : Option ServerInfo)
    (h : s.startResult = Except.ok si) :
    startWallet s
      = startWalletPre s ++
          (serverInfoEffect si s.networkName :: startWalletAfterStart s) := by
  unfold startWallet
  cases si <;> simp [h, serverInfoEffect]

/-- C2 counterexample input: a Local-backend run (not hardware, remote flag
false) whose `wallet.start` call throws, and whose remaining external steps
all succeed. -/
def c2LocalFail : StartIn :=
  { hardwareWallet := false, ffIgnored := false, ffFlagValue := false,
    networkName := "mainnet", startResult := Except.error (),
    readyAfterStart := true, raceError := false, htrFetchOk := true,
    getTokensResult := Except.ok [htrUid], registeredTokens := [htrUid],
    finalReload := false }

/-- C2 counterexample: on a Local-backend run whose start call throws, the
claim says the failure is not caught and surfaces as an unhandled error; in
the code the `catch` block swallows it — the run continues past the catch,
navigates to the loading screen, completes token loading, emits
`loadWalletSuccess`, and never emits a failure status. -/
theorem C2_counterexample_local_failure_swallowed :
    useWalletServiceOf c2LocalFail = false ∧
    c2LocalFail.startResult = Except.error () ∧
    Effect.routerReplace "/loading_addresses" ∈ startWallet c2LocalFail ∧
    Effect.loadWalletSuccess [htrUid] ∈ startWallet c2LocalFail ∧
    Effect.startWalletFailed ∉ startWallet c2LocalFail :=
  ⟨rfl, rfl, by decide, by decide, by decide⟩

/-- C2 (amended): on a remote-service run whose start call throws, the
orchestrator emits exactly the ignore-remote-service decision, then the
thread-group cancellation, then the one re-dispatch of the original start
request — the ignore decision strictly before the restart, the re-dispatch
exactly once, and the ignore decision persistently recorded; any run that
starts with the ignore decision recorded resolves the backend kind to Local,
and its start failure can never trigger the fallback again (the catch block's
ignore effect occurs in no such run).  On a Local-backend start failure the
catch block swallows the error (see the counterexample). -/
theorem C2_remote_fallback_one_shot (s s2 : StartIn)
    (hfail : s.startResult = Except.error ())
    (huws : useWalletServiceOf s = true)
    (h2 : s2.ffIgnored = true) :
    startWallet s
        = startWalletPre s ++
            [Effect.callIgnoreWalletServiceFlag, Effect.cancelThreads,
              Effect.redispatchStartAction] ∧
    (startWallet s).count Effect.redispatchStartAction = 1 ∧
    ffIgnoredAfter s = true ∧
    useWalletServiceOf s2 = false ∧
    Effect.callIgnoreWalletServiceFlag ∉ startWallet s2 := by
  have heq : startWallet s
      = startWalletPre s ++
          [Effect.callIgnoreWalletServiceFlag, Effect.cancelThreads,
            Effect.redispatchStartAction] := by
    rw [startWallet, hfail]
    simp [huws]
  have huws2 : useWalletServiceOf s2 = false := by
    rw [useWalletServiceOf, shouldUseWalletService, h2]
    cases s2.hardwareWallet <;> simp
  refine ⟨heq, ?_, ?_, huws2, ?_⟩
  · rw [heq, List.count_append]
    simp [startWalletPre]
  · rw [ffIgnoredAfter, hfail]
    simp [huws]
  · intro hm
    have hpre : Effect.callIgnoreWalletServiceFlag ∉ startWalletPre s2 := by
      simp [startWalletPre]
    rcases hsr : s2.startResult with u | si
    · rw [startWallet, hsr, huws2] at hm
      simp at hm
      rcases hm with hm | hm
      · exact hpre hm
      · exact ignore_not_mem_afterStart s2 hm
    · rw [startWallet, hsr] at hm
      simp at hm
      rcases hm with hm | hm | hm
      · exact hpre hm
      · revert hm
        cases si <;> simp
      · exact ignore_not_mem_afterStart s2 hm

/-- Witness for C2 (amended) at concrete runs: a remote run with failing
start, and a second run with the ignore decision recorded. -/
theorem C2_remote_fallback_one_shot_witness :
    ffIgnoredAfter
        { hardwareWallet := false, ffIgnored := false, ffFlagValue := true,
          networkName := "mainnet", startResult := Except.error (),
          readyAfterStart := true, raceError := false, htrFetchOk := true,
          getTokensResult := Except.ok [htrUid], registeredTokens := [htrUid],
          finalReload := false } = true ∧
      useWalletServiceOf { c2LocalFail with ffIgnored := true, ffFlagValue := true } = false :=
  ⟨(C2_remote_fallback_one_shot
      { hardwareWallet := false, ffIgnored := false, ffFlagValue := true,
        networkName := "mainnet", startResult := Except.error (),
        readyAfterStart := true, raceError := false, htrFetchOk := true,
        getTokensResult := Except.ok [htrUid], registeredTokens := [htrUid],
        finalReload := false }
      { c2LocalFail with ffIgnored := true, ffFlagValue := true }
      rfl (by decide) rfl).2.2.1,
    (C2_remote_fallback_one_shot
      { hardwareWallet := false, ffIgnored := false, ffFlagValue := true,
        networkName := "mainnet", startResult := Except.error (),
        readyAfterStart := true, raceError := false, htrFetchOk := true,
        getTokensResult := Except.ok [htrUid], registeredTokens := [htrUid],
        finalReload := false }
      { c2LocalFail with ffIgnored := true, ffFlagValue := true }
      rfl (by decide) rfl).2.2.2.1⟩

/-- Helper: the whole reload run when `loadTokens` throws. -/
theorem walletReloading_eq_loadfail (r : ReloadIn)
    (hlf : (loadTokens r.htrFetchOk r.getTokensResult r.registeredTokens).2
        = Except.error ()) :
    walletReloading r
      = (Effect.loadingAddresses true ::
          (if !r.useWalletService then
            [Effect.forkListenForWalletReady, Effect.takeWalletStateReady]
          else [])) ++
          (loadTokens r.htrFetchOk r.getTokensResult r.registeredTokens).1 ++
          [Effect.startWalletFailed] := by
  unfold walletReloading
  simp [hlf]

/-- C3 counterexample input: a reload cycle on the old facade whose HTR
fetch throws. -/
def c3ReloadFail : ReloadIn :=
  { useWalletService := false, htrFetchOk := false, getTokensResult := Except.ok [],
    registeredTokens := [], getNewAddressesOk := true }

/-- C3 counterexample: a token-load exception during a reload cycle emits
the Failed status but performs no thread-group cancellation — the claim's
"full thread-group cancellation" for every terminal-session failure fails on
the reload path (`walletReloading`'s catch only puts `startWalletFailed` and
returns). -/
theorem C3_counterexample_reload_without_cancellation :
    Effect.startWalletFailed ∈ walletReloading c3ReloadFail ∧
    Effect.cancelThreads ∉ walletReloading c3ReloadFail := by
  decide

/-- C3 (amended): a readiness-wait error signal during start, and a
token-load exception during start, both end the run with the Failed status
followed by thread-group cancellation and no retry effect; a token-load
exception during a reload cycle ends the run with the Failed status alone —
no thread-group cancellation — and no retry effect. -/
theorem C3_terminal_failures (s sl : StartIn) (r : ReloadIn)
    (hpast : s.startResult = Except.error () → useWalletServiceOf s = false)
    (hready : s.readyAfterStart = false) (herr : s.raceError = true)
    (hpast2 : sl.startResult = Except.error () → useWalletServiceOf sl = false)
    (hnorace : sl.readyAfterStart = true ∨ sl.raceError = false)
    (hlf : (loadTokens sl.htrFetchOk sl.getTokensResult sl.registeredTokens).2
        = Except.error ())
    (hlfr : (loadTokens r.htrFetchOk r.getTokensResult r.registeredTokens).2
        = Except.error ()) :
    (∃ pfx, startWallet s = pfx ++ [Effect.startWalletFailed, Effect.cancelThreads]) ∧
    Effect.reloadWalletRequested ∉ startWallet s ∧
    Effect.redispatchStartAction ∉ startWallet s ∧
    (∃ pfx, startWallet sl = pfx ++ [Effect.startWalletFailed, Effect.cancelThreads]) ∧
    Effect.reloadWalletRequested ∉ startWallet sl ∧
    Effect.redispatchStartAction ∉ startWallet sl ∧
    (∃ pfx, walletReloading r = pfx ++ [Effect.startWalletFailed]) ∧
    Effect.cancelThreads ∉ walletReloading r ∧
    Effect.reloadWalletRequested ∉ walletReloading r := by
  have hA : ∃ pfxh, startWallet s = pfxh ++ startWalletAfterStart s ∧
      Effect.reloadWalletRequested ∉ pfxh ∧ Effect.redispatchStartAction ∉ pfxh := by
    rcases hsr : s.startResult with u | si
    · cases u
      exact ⟨startWalletPre s, startWallet_eq_err_local s hsr (hpast hsr),
        by simp [startWalletPre], by simp [startWalletPre]⟩
    · refine ⟨startWalletPre s ++ [serverInfoEffect si s.networkName], ?_, ?_, ?_⟩
      · rw [startWallet_eq_ok s si hsr]
        simp
      · simp only [List.mem_append, startWalletPre]
        rintro (h | h)
        · simp at h
        · revert h; cases si <;> simp [serverInfoEffect]
      · simp only [List.mem_append, startWalletPre]
        rintro (h | h)
        · simp at h
        · revert h; cases si <;> simp [serverInfoEffect]
  have hB : ∃ pfxh, startWallet sl = pfxh ++ startWalletAfterStart sl ∧
      Effect.reloadWalletRequested ∉ pfxh ∧ Effect.redispatchStartAction ∉ pfxh := by
    rcases hsr : sl.startResult with u | si
    · cases u
      exact ⟨startWalletPre sl, startWallet_eq_err_local sl hsr (hpast2 hsr),
        by simp [startWalletPre], by simp [startWalletPre]⟩
    · refine ⟨startWalletPre sl ++ [serverInfoEffect si sl.networkName], ?_, ?_, ?_⟩
      · rw [startWallet_eq_ok sl si hsr]
        simp
      · simp only [List.mem_append, startWalletPre]
        rintro (h | h)
        · simp at h
        · revert h; cases si <;> simp [serverInfoEffect]
      · simp only [List.mem_append, startWalletPre]
        rintro (h | h)
        · simp at h
        · revert h; cases si <;> simp [serverInfoEffect]
  obtain ⟨pA, hAeq, hAr, hAd⟩ := hA
  obtain ⟨pB, hBeq, hBr, hBd⟩ := hB
  have haftA := afterStart_eq_raceerr s hready herr
  have hmidB : ∃ mid, startWalletAfterStart sl = mid ++ startWalletLoadPhase sl ∧
      Effect.reloadWalletRequested ∉ mid ∧ Effect.redispatchStartAction ∉ mid := by
    cases hra : sl.readyAfterStart with
    | true =>
      exact ⟨[Effect.routerReplace "/loading_addresses"],
        by rw [afterStart_eq_ready sl hra]; rfl, by simp, by simp⟩
    | false =>
      have hre : sl.raceError = false := by
        rcases hnorace with h | h
        · rw [hra] at h; cases h
        · exact h
      exact ⟨[Effect.routerReplace "/loading_addresses", Effect.raceReadyOrError],
        afterStart_eq_raceok sl hra hre, by simp, by simp⟩
  obtain ⟨mB, hBmid, hBmr, hBmd⟩ := hmidB
  have hphaseB := loadPhase_loadfail sl hlf
  have hloadBr := not_mem_loadTokens sl.htrFetchOk sl.getTokensResult sl.registeredTokens
    Effect.reloadWalletRequested (by simp) (by simp) (by simp)
  have hloadBd := not_mem_loadTokens sl.htrFetchOk sl.getTokensResult sl.registeredTokens
    Effect.redispatchStartAction (by simp) (by simp) (by simp)
  have hreq := walletReloading_eq_loadfail r hlfr
  have hloadCc := not_mem_loadTokens r.htrFetchOk r.getTokensResult r.registeredTokens
    Effect.cancelThreads (by simp) (by simp) (by simp)
  have hloadCr := not_mem_loadTokens r.htrFetchOk r.getTokensResult r.registeredTokens
    Effect.reloadWalletRequested (by simp) (by simp) (by simp)
  refine ⟨?_, ?_, ?_, ?_, ?_, ?_, ?_, ?_, ?_⟩
  · refine ⟨pA ++ [Effect.routerReplace "/loading_addresses", Effect.raceReadyOrError], ?_⟩
    rw [hAeq, haftA]
    simp
  · rw [hAeq, haftA]
    simp only [List.mem_append]
    rintro (h | h)
    · exact hAr h
    · simp at h
  · rw [hAeq, haftA]
    simp only [List.mem_append]
    rintro (h | h)
    · exact hAd h
    · simp at h
  · refine ⟨pB ++ mB ++
      (loadTokens sl.htrFetchOk sl.getTokensResult sl.registeredTokens).1, ?_⟩
    rw [hBeq, hBmid, hphaseB]
    simp
  · rw [hBeq, hBmid, hphaseB]
    simp only [List.mem_append]
    rintro (h | h | h | h)
    · exact hBr h
    · exact hBmr h
    · exact hloadBr h
    · simp at h
  · rw [hBeq, hBmid, hphaseB]
    simp only [List.mem_append]
    rintro (h | h | h | h)
    · exact hBd h
    · exact hBmd h
    · exact hloadBd h
    · simp at h
  · refine ⟨(Effect.loadingAddresses true ::
      (if !r.useWalletService then
        [Effect.forkListenForWalletReady, Effect.takeWalletStateReady]
      else [])) ++
      (loadTokens r.htrFetchOk r.getTokensResult r.registeredTokens).1, ?_⟩
    rw [hreq]
  · rw [hreq]
    simp only [List.mem_append]
    rintro ((h | h) | h)
    · revert h
      cases r.useWalletService <;> simp
    · exact hloadCc h
    · simp at h
  · rw [hreq]
    simp only [List.mem_append]
    rintro ((h | h) | h)
    · revert h
      cases r.useWalletService <;> simp
    · exact hloadCr h
    · simp at h

/-- Helper: the whole reload run when `loadTokens` succeeds and so does the
address-pool refresh (when reached). -/
theorem walletReloading_eq_ok (r : ReloadIn) (ts : List TokenId)
    (hok : (loadTokens r.htrFetchOk r.getTokensResult r.registeredTokens).2
        = Except.ok ts)
    (hga : r.useWalletService = false ∨ r.getNewAddressesOk = true) :
    walletReloading r
      = (Effect.loadingAddresses true ::
          (if !r.useWalletService then
            [Effect.forkListenForWalletReady, Effect.takeWalletStateReady]
          else [])) ++
          (loadTokens r.htrFetchOk r.getTokensResult r.registeredTokens).1 ++
          ((ts.filter fun u => u != htrUid).map Effect.tokenInvalidateHistory) ++
          (if r.useWalletService then [Effect.callGetNewAddresses] else []) ++
          [Effect.walletRefreshSharedAddress, Effect.loadWalletSuccess ts,
            Effect.routerReplace "/wallet/", Effect.loadingAddresses false] := by
  unfold walletReloading
  rcases hga with h | h
  · simp [hok, h]
  · simp [hok, h]

/-- Helper for C9: occurrences of one token's invalidation message in the
invalidation loop over a duplicate-free token set. -/
theorem invalidate_chunk_count (t : TokenId) :
    ∀ l : List TokenId, l.Nodup →
      (((l.filter fun u => u != htrUid).map Effect.tokenInvalidateHistory).count
          (Effect.tokenInvalidateHistory t)
        = if t ∈ l ∧ t ≠ htrUid then 1 else 0) := by
  intro l
  induction l with
  | nil => intro _; simp
  | cons u rest ih =>
    intro hnd
    have h2 := ih (List.Nodup.of_cons hnd)
    by_cases ht : t = u
    · subst ht
      have htr : t ∉ rest := (List.nodup_cons.mp hnd).1
      by_cases hh : t = htrUid
      · subst hh
        simp [List.filter_cons, h2]
      · simp [List.filter_cons, hh, List.count_cons, h2, htr]
    · have hts : ¬ (u = t) := fun h => ht h.symm
      by_cases hu : u = htrUid
      · simp [List.filter_cons, hu, h2, ht]
        by_cases hth : t = htrUid <;> simp [hth]
      · simp [List.filter_cons, hu, List.count_cons, h2, ht, hts]

/-- C9: on a successful reload cycle over a duplicate-free refreshed token
set, exactly one history invalidation is emitted per token other than
base-currency and none for base-currency; the fresh readiness watcher is
forked, and the ready signal awaited, exactly when the backend is the old
(Local) facade; the facade's internal address-pool refresh is requested
exactly when the backend is the wallet service; and the shared-address
refresh request and the load-success status are emitted. -/
theorem C9_reload_flow (r : ReloadIn) (allTokens : List TokenId) (t : TokenId)
    (hok : (loadTokens r.htrFetchOk r.getTokensResult r.registeredTokens).2
        = Except.ok allTokens)
    (hnd : allTokens.Nodup)
    (hga : r.getNewAddressesOk = true) :
    ((walletReloading r).count (Effect.tokenInvalidateHistory t)
        = if t ∈ allTokens ∧ t ≠ htrUid then 1 else 0) ∧
    (Effect.forkListenForWalletReady ∈ walletReloading r ↔ r.useWalletService = false) ∧
    (Effect.takeWalletStateReady ∈ walletReloading r ↔ r.useWalletService = false) ∧
    (Effect.callGetNewAddresses ∈ walletReloading r ↔ r.useWalletService = true) ∧
    Effect.walletRefreshSharedAddress ∈ walletReloading r ∧
    Effect.loadWalletSuccess allTokens ∈ walletReloading r := by
  have heq := walletReloading_eq_ok r allTokens hok (Or.inr hga)
  have hinv := not_mem_loadTokens r.htrFetchOk r.getTokensResult r.registeredTokens
    (Effect.tokenInvalidateHistory t) (by simp) (by simp) (by simp)
  have hfork := not_mem_loadTokens r.htrFetchOk r.getTokensResult r.registeredTokens
    Effect.forkListenForWalletReady (by simp) (by simp) (by simp)
  have htake := not_mem_loadTokens r.htrFetchOk r.getTokensResult r.registeredTokens
    Effect.takeWalletStateReady (by simp) (by simp) (by simp)
  have hganm := not_mem_loadTokens r.htrFetchOk r.getTokensResult r.registeredTokens
    Effect.callGetNewAddresses (by simp) (by simp) (by simp)
  refine ⟨?_, ?_, ?_, ?_, ?_, ?_⟩
  · rw [heq]
    rw [List.count_append, List.count_append, List.count_append, List.count_append]
    rw [invalidate_chunk_count t allTokens hnd]
    rw [List.count_eq_zero.mpr hinv]
    cases hu : r.useWalletService <;> simp [List.count_cons]
  · rw [heq]
    cases hu : r.useWalletService <;> simp [hfork, List.mem_map]
  · rw [heq]
    cases hu : r.useWalletService <;> simp [htake, List.mem_map]
  · rw [heq]
    cases hu : r.useWalletService <;> simp [hganm, List.mem_map]
  · rw [heq]
    simp
  · rw [heq]
    simp

/-- Witness for C9 at a concrete Local-backend reload over tokens
`[00, X]`. -/
theorem C9_reload_flow_witness :
    Effect.loadWalletSuccess [htrUid, "X"]
      ∈ walletReloading ⟨false, true, Except.ok [htrUid, "X"], ["X"], true⟩ :=
  (C9_reload_flow ⟨false, true, Except.ok [htrUid, "X"], ["X"], true⟩ [htrUid, "X"]
    "X" rfl (by decide) rfl).2.2.2.2.2

/-- Concrete readiness-error start input for the C3 witness. -/
def c3RaceErr : StartIn :=
  { hardwareWallet := true, ffIgnored := false, ffFlagValue := false,
    networkName := "mainnet", startResult := Except.ok none,
    readyAfterStart := false, raceError := true, htrFetchOk := true,
    getTokensResult := Except.ok [], registeredTokens := [], finalReload := false }

/-- Concrete load-failure start input for the C3 witness. -/
def c3LoadFail : StartIn :=
  { hardwareWallet := true, ffIgnored := false, ffFlagValue := false,
    networkName := "mainnet", startResult := Except.ok none,
    readyAfterStart := true, raceError := false, htrFetchOk := false,
    getTokensResult := Except.ok [], registeredTokens := [], finalReload := false }

/-- Witness for C3 (amended) at concrete failing runs. -/
theorem C3_terminal_failures_witness :
    Effect.cancelThreads ∉ walletReloading c3ReloadFail :=
  (C3_terminal_failures c3RaceErr c3LoadFail c3ReloadFail
    (fun _ => rfl) rfl rfl (fun _ => rfl) (Or.inl rfl) rfl rfl).2.2.2.2.2.2.2.1

/-- Helper: folding the flag over an append. -/
theorem loadingFlagAfter_append (l1 l2 : List Effect) (init : Option Bool) :
    loadingFlagAfter (l1 ++ l2) init = loadingFlagAfter l2 (loadingFlagAfter l1 init) := by
  simp [loadingFlagAfter, List.foldl_append]

/-- Helper: one step of the flag fold. -/
theorem loadingFlagAfter_cons (e : Effect) (l : List Effect) (init : Option Bool) :
    loadingFlagAfter (e :: l) init
      = loadingFlagAfter l
          (match e with
            | Effect.loadingAddresses b => some b
            | _ => init) := rfl

/-- Helper: a chunk without `loadingAddresses` puts leaves the flag as it
was. -/
theorem loadingFlagAfter_of_no_loading (l : List Effect) (init : Option Bool)
    (h : ∀ b, Effect.loadingAddresses b ∉ l) : loadingFlagAfter l init = init := by
  induction l generalizing init with
  | nil => rfl
  | cons e rest ih =>
    have hrest : ∀ b, Effect.loadingAddresses b ∉ rest := fun b hb =>
      h b (List.mem_cons_of_mem _ hb)
    rw [loadingFlagAfter_cons]
    cases e <;>
      first
        | exact absurd (List.mem_cons_self _ _) (h _)
        | exact ih init hrest

/-- Helper: `loadTokens` never touches the loading flag. -/
theorem loadTokens_no_loading (h : Bool) (g : Except Unit (List TokenId))
    (reg : List TokenId) (b : Bool) :
    Effect.loadingAddresses b ∉ (loadTokens h g reg).1 :=
  not_mem_loadTokens h g reg _ (by simp) (by simp) (by simp)

/-- Helper: `loadTokens` never emits the load-success status. -/
theorem loadTokens_no_success (h : Bool) (g : Except Unit (List TokenId))
    (reg : List TokenId) (ts : List TokenId) :
    Effect.loadWalletSuccess ts ∉ (loadTokens h g reg).1 :=
  not_mem_loadTokens h g reg _ (by simp) (by simp) (by simp)

/-- Helper: the flag after the unconditional prefix of `startWallet` is
set. -/
theorem startWalletPre_flag (s : StartIn) (init : Option Bool) :
    loadingFlagAfter (startWalletPre s) init = some true := rfl

/-- Helper: the whole run when the start call throws on the wallet
service — the remote fallback. -/
theorem startWallet_eq_fallback (s : StartIn) (h : s.startResult = Except.error ())
    (huws : useWalletServiceOf s = true) :
    startWallet s
      = startWalletPre s ++
          [Effect.callIgnoreWalletServiceFlag, Effect.cancelThreads,
            Effect.redispatchStartAction] := by
  unfold startWallet
  simp [h, huws]

/-- Helper: every run that gets past the start catch splits as the prefix, a
neutral middle (empty or the `setServerInfo` put), and the post-start
effects. -/
theorem startWallet_shape (s : StartIn)
    (hpast : s.startResult = Except.error () → useWalletServiceOf s = false) :
    ∃ mid, startWallet s = startWalletPre s ++ mid ++ startWalletAfterStart s ∧
      (∀ b, Effect.loadingAddresses b ∉ mid) ∧
      (∀ ts, Effect.loadWalletSuccess ts ∉ mid) ∧
      Effect.startWalletFailed ∉ mid := by
  rcases hsr : s.startResult with u | si
  · cases u
    refine ⟨[], ?_, by simp, by simp, by simp⟩
    simpa using startWallet_eq_err_local s hsr (hpast hsr)
  · refine ⟨[serverInfoEffect si s.networkName], ?_, ?_, ?_, ?_⟩
    · simpa using startWallet_eq_ok s si hsr
    · intro b; cases si <;> simp [serverInfoEffect]
    · intro ts; cases si <;> simp [serverInfoEffect]
    · cases si <;> simp [serverInfoEffect]

/-- Helper: when the readiness race is not lost, the post-start effects are
a neutral middle followed by the load phase. -/
theorem afterStart_shape_norace (s : StartIn)
    (hnorace : s.readyAfterStart = true ∨ s.raceError = false) :
    ∃ mid, startWalletAfterStart s = mid ++ startWalletLoadPhase s ∧
      (∀ b, Effect.loadingAddresses b ∉ mid) ∧
      (∀ ts, Effect.loadWalletSuccess ts ∉ mid) ∧
      Effect.startWalletFailed ∉ mid := by
  cases hra : s.readyAfterStart with
  | true =>
    exact ⟨[Effect.routerReplace "/loading_addresses"],
      by rw [afterStart_eq_ready s hra]; rfl, by simp, by simp, by simp⟩
  | false =>
    have hre : s.raceError = false := by
      rcases hnorace with h | h
      · rw [hra] at h; cases h
      · exact h
    exact ⟨[Effect.routerReplace "/loading_addresses", Effect.raceReadyOrError],
      afterStart_eq_raceok s hra hre, by simp, by simp, by simp⟩

/-- Helper: the flag and the load-success status over the load phase:
either the phase failed, leaving the flag set and emitting no success, or it
succeeded, clearing the flag and emitting the success status. -/
theorem loadPhase_flag_cases (s : StartIn) :
    (loadingFlagAfter (startWalletLoadPhase s) (some true) = some true ∧
      ∀ ts, Effect.loadWalletSuccess ts ∉ startWalletLoadPhase s) ∨
    (loadingFlagAfter (startWalletLoadPhase s) (some true) = some false ∧
      ∃ ts, Effect.loadWalletSuccess ts ∈ startWalletLoadPhase s) := by
  rcases hres : (loadTokens s.htrFetchOk s.getTokensResult s.registeredTokens).2
    with u | ts
  · left
    cases u
    have heq := loadPhase_loadfail s hres
    constructor
    · rw [heq, loadingFlagAfter_append,
        loadingFlagAfter_of_no_loading _ _
          (loadTokens_no_loading s.htrFetchOk s.getTokensResult s.registeredTokens)]
      rfl
    · intro ts hm
      rw [heq] at hm
      rcases List.mem_append.mp hm with h | h
      · exact loadTokens_no_success _ _ _ _ h
      · simp at h
  · right
    have heq := loadPhase_loadok s ts hres
    refine ⟨?_, ts, ?_⟩
    · rw [heq, loadingFlagAfter_append, loadingFlagAfter_append,
        loadingFlagAfter_of_no_loading _ _
          (loadTokens_no_loading s.htrFetchOk s.getTokensResult s.registeredTokens)]
      cases s.finalReload <;> rfl
    · rw [heq]
      simp

/-- Helper: the post-start flag and load-success status, from a set flag. -/
theorem afterStart_flag_cases (s : StartIn) :
    (loadingFlagAfter (startWalletAfterStart s) (some true) = some true ∧
      ∀ ts, Effect.loadWalletSuccess ts ∉ startWalletAfterStart s) ∨
    (loadingFlagAfter (startWalletAfterStart s) (some true) = some false ∧
      ∃ ts, Effect.loadWalletSuccess ts ∈ startWalletAfterStart s) := by
  cases hra : s.readyAfterStart with
  | true =>
    have heq := afterStart_eq_ready s hra
    rcases loadPhase_flag_cases s with ⟨hf, hn⟩ | ⟨hf, ts, hm⟩
    · left
      constructor
      · rw [heq, loadingFlagAfter_cons]
        exact hf
      · intro ts hmm
        rw [heq] at hmm
        rcases List.mem_cons.mp hmm with h | h
        · simp at h
        · exact hn ts h
    · right
      refine ⟨?_, ts, ?_⟩
      · rw [heq, loadingFlagAfter_cons]
        exact hf
      · rw [heq]
        exact List.mem_cons_of_mem _ hm
  | false =>
    cases hre : s.raceError with
    | true =>
      left
      have heq := afterStart_eq_raceerr s hra hre
      constructor
      · rw [heq]
        rfl
      · intro ts hm
        rw [heq] at hm
        simp at hm
    | false =>
      have heq := afterStart_eq_raceok s hra hre
      rcases loadPhase_flag_cases s with ⟨hf, hn⟩ | ⟨hf, ts, hm⟩
      · left
        constructor
        · rw [heq, loadingFlagAfter_append]
          exact hf
        · intro ts hmm
          rw [heq] at hmm
          rcases List.mem_append.mp hmm with h | h
          · simp at h
          · exact hn ts h
      · right
        refine ⟨?_, ts, ?_⟩
        · rw [heq, loadingFlagAfter_append]
          exact hf
        · rw [heq]
          exact List.mem_append_right _ hm

/-- Helper: the flag and load-success status over a whole `startWallet`
run: either the flag is left set and no load-success was put, or the flag
was cleared and a load-success was put. -/
theorem startWallet_flag_cases (s : StartIn) (init : Option Bool) :
    (loadingFlagAfter (startWallet s) init = some true ∧
      ∀ ts, Effect.loadWalletSuccess ts ∉ startWallet s) ∨
    (loadingFlagAfter (startWallet s) init = some false ∧
      ∃ ts, Effect.loadWalletSuccess ts ∈ startWallet s) := by
  by_cases hfb : s.startResult = Except.error () ∧ useWalletServiceOf s = true
  · left
    have heq := startWallet_eq_fallback s hfb.1 hfb.2
    constructor
    · rw [heq, loadingFlagAfter_append, startWalletPre_flag]
      rfl
    · intro ts hm
      rw [heq] at hm
      rcases List.mem_append.mp hm with h | h
      · simp [startWalletPre] at h
      · simp at h
  · have hpast : s.startResult = Except.error () → useWalletServiceOf s = false := by
      intro h
      by_contra hc
      exact hfb ⟨h, by revert hc; cases useWalletServiceOf s <;> simp⟩
    obtain ⟨mid, heq, hml, hms, -⟩ := startWallet_shape s hpast
    rcases afterStart_flag_cases s with ⟨hf, hn⟩ | ⟨hf, ts, hm⟩
    · left
      constructor
      · rw [heq, loadingFlagAfter_append, loadingFlagAfter_append, startWalletPre_flag,
          loadingFlagAfter_of_no_loading mid _ hml, hf]
      · intro ts hmm
        rw [heq] at hmm
        rcases List.mem_append.mp hmm with h | h
        · rcases List.mem_append.mp h with h | h
          · simp [startWalletPre] at h
          · exact hms ts h
        · exact hn ts h
    · right
      refine ⟨?_, ts, ?_⟩
      · rw [heq, loadingFlagAfter_append, loadingFlagAfter_append, startWalletPre_flag,
          loadingFlagAfter_of_no_loading mid _ hml, hf]
      · rw [heq]
        exact List.mem_append_right _ hm

/-- Helper: the whole reload run when `loadTokens` succeeds but the
wallet-service address-pool refresh throws. -/
theorem walletReloading_eq_gafail (r : ReloadIn) (ts : List TokenId)
    (hok : (loadTokens r.htrFetchOk r.getTokensResult r.registeredTokens).2
        = Except.ok ts)
    (huws : r.useWalletService = true) (hga : r.getNewAddressesOk = false) :
    walletReloading r
      = [Effect.loadingAddresses true] ++
          (loadTokens r.htrFetchOk r.getTokensResult r.registeredTokens).1 ++
          ((ts.filter fun u => u != htrUid).map Effect.tokenInvalidateHistory) ++
          [Effect.callGetNewAddresses, Effect.startWalletFailed] := by
  unfold walletReloading
  simp [hok, huws, hga]

/-- Helper: the flag and load-success status over a whole `walletReloading`
run. -/
theorem walletReloading_flag_cases (r : ReloadIn) (init : Option Bool) :
    (loadingFlagAfter (walletReloading r) init = some true ∧
      ∀ ts, Effect.loadWalletSuccess ts ∉ walletReloading r) ∨
    (loadingFlagAfter (walletReloading r) init = some false ∧
      ∃ ts, Effect.loadWalletSuccess ts ∈ walletReloading r) := by
  have hpreflag : ∀ init0 : Option Bool,
      loadingFlagAfter
        (Effect.loadingAddresses true ::
          (if !r.useWalletService then
            [Effect.forkListenForWalletReady, Effect.takeWalletStateReady]
          else [])) init0 = some true := by
    intro init0
    cases r.useWalletService <;> rfl
  rcases hres : (loadTokens r.htrFetchOk r.getTokensResult r.registeredTokens).2
    with u | ts
  · left
    cases u
    have heq := walletReloading_eq_loadfail r hres
    constructor
    · rw [heq]
      simp only [loadingFlagAfter_append]
      rw [hpreflag, loadingFlagAfter_of_no_loading _ _
        (loadTokens_no_loading r.htrFetchOk r.getTokensResult r.registeredTokens)]
      rfl
    · intro ts hm
      rw [heq] at hm
      rcases List.mem_append.mp hm with h | h
      · rcases List.mem_append.mp h with h | h
        · revert h; cases r.useWalletService <;> simp
        · exact loadTokens_no_success _ _ _ _ h
      · simp at h
  · by_cases hga : (r.useWalletService && !r.getNewAddressesOk) = true
    · left
      simp only [Bool.and_eq_true, Bool.not_eq_true'] at hga
      have heq := walletReloading_eq_gafail r ts hres hga.1 hga.2
      constructor
      · rw [heq]
        simp only [loadingFlagAfter_append]
        rw [loadingFlagAfter_of_no_loading
            (loadTokens r.htrFetchOk r.getTokensResult r.registeredTokens).1 _
            (loadTokens_no_loading r.htrFetchOk r.getTokensResult r.registeredTokens),
          loadingFlagAfter_of_no_loading
            ((ts.filter fun u => u != htrUid).map Effect.tokenInvalidateHistory) _
            (fun b => by simp)]
        rfl
      · intro us hm
        rw [heq] at hm
        rcases List.mem_append.mp hm with h | h
        · rcases List.mem_append.mp h with h | h
          · rcases List.mem_append.mp h with h | h
            · simp at h
            · exact loadTokens_no_success _ _ _ _ h
          · simp at h
        · simp at h
    · have hcond : r.useWalletService = false ∨ r.getNewAddressesOk = true := by
        revert hga
        cases r.useWalletService <;> cases r.getNewAddressesOk <;> simp
      have heq := walletReloading_eq_ok r ts hres hcond
      right
      refine ⟨?_, ts, ?_⟩
      · rw [heq]
        simp only [loadingFlagAfter_append]
        rw [hpreflag, loadingFlagAfter_of_no_loading
            (loadTokens r.htrFetchOk r.getTokensResult r.registeredTokens).1 _
            (loadTokens_no_loading r.htrFetchOk r.getTokensResult r.registeredTokens),
          loadingFlagAfter_of_no_loading
            ((ts.filter fun u => u != htrUid).map Effect.tokenInvalidateHistory) _
            (fun b => by simp),
          loadingFlagAfter_of_no_loading
            (if r.useWalletService then [Effect.callGetNewAddresses] else []) _
            (fun b => by cases r.useWalletService <;> simp)]
        rfl
      · rw [heq]
        simp

/-- Helper: the first effect of every `startWallet` run sets the flag. -/
theorem startWallet_head (s : StartIn) :
    (startWallet s).head? = some (Effect.loadingAddresses true) := by
  rcases hsr : s.startResult with u | si
  · cases u
    cases huws : useWalletServiceOf s with
    | false => rw [startWallet_eq_err_local s hsr huws]; rfl
    | true => rw [startWallet_eq_fallback s hsr huws]; rfl
  · rw [startWallet_eq_ok s si hsr]
    rfl

/-- Helper: the first effect of every `walletReloading` run sets the
flag. -/
theorem walletReloading_head (r : ReloadIn) :
    (walletReloading r).head? = some (Effect.loadingAddresses true) := by
  rcases hres : (loadTokens r.htrFetchOk r.getTokensResult r.registeredTokens).2
    with u | ts
  · cases u
    rw [walletReloading_eq_loadfail r hres]
    rfl
  · by_cases hga : (r.useWalletService && !r.getNewAddressesOk) = true
    · simp only [Bool.and_eq_true, Bool.not_eq_true'] at hga
      rw [walletReloading_eq_gafail r ts hres hga.1 hga.2]
      rfl
    · have hcond : r.useWalletService = false ∨ r.getNewAddressesOk = true := by
        revert hga
        cases r.useWalletService <;> cases r.getNewAddressesOk <;> simp
      rw [walletReloading_eq_ok r ts hres hcond]
      rfl

/-- C10: the loading flag is set by the first effect of every start run and
every reload run; it ends cleared (false) exactly when the run emitted the
load-success status (the fully successful path); and on each of the failing
paths — the readiness-race error, a token-load throw during start, and a
token-load throw during a reload — the flag is still set at return, the
Failed status was emitted, and no load-success status was emitted. -/
theorem C10_loading_flag (s : StartIn) (r : ReloadIn) (init : Option Bool) :
    (startWallet s).head? = some (Effect.loadingAddresses true) ∧
    (walletReloading r).head? = some (Effect.loadingAddresses true) ∧
    (loadingFlagAfter (startWallet s) init = some false ↔
      ∃ ts, Effect.loadWalletSuccess ts ∈ startWallet s) ∧
    (loadingFlagAfter (walletReloading r) init = some false ↔
      ∃ ts, Effect.loadWalletSuccess ts ∈ walletReloading r) ∧
    ((s.startResult = Except.error () → useWalletServiceOf s = false) →
      s.readyAfterStart = false → s.raceError = true →
      loadingFlagAfter (startWallet s) init = some true ∧
        Effect.startWalletFailed ∈ startWallet s ∧
        ∀ ts, Effect.loadWalletSuccess ts ∉ startWallet s) ∧
    ((s.startResult = Except.error () → useWalletServiceOf s = false) →
      (s.readyAfterStart = true ∨ s.raceError = false) →
      (loadTokens s.htrFetchOk s.getTokensResult s.registeredTokens).2
          = Except.error () →
      loadingFlagAfter (startWallet s) init = some true ∧
        Effect.startWalletFailed ∈ startWallet s ∧
        ∀ ts, Effect.loadWalletSuccess ts ∉ startWallet s) ∧
    ((loadTokens r.htrFetchOk r.getTokensResult r.registeredTokens).2
        = Except.error () →
      loadingFlagAfter (walletReloading r) init = some true ∧
        Effect.startWalletFailed ∈ walletReloading r ∧
        ∀ ts, Effect.loadWalletSuccess ts ∉ walletReloading r) := by
  refine ⟨startWallet_head s, walletReloading_head r, ?_, ?_, ?_, ?_, ?_⟩
  · rcases startWallet_flag_cases s init with ⟨hf, hn⟩ | ⟨hf, hex⟩
    · constructor
      · intro h
        rw [hf] at h
        simp at h
      · rintro ⟨ts, hm⟩
        exact absurd hm (hn ts)
    · exact ⟨fun _ => hex, fun _ => hf⟩
  · rcases walletReloading_flag_cases r init with ⟨hf, hn⟩ | ⟨hf, hex⟩
    · constructor
      · intro h
        rw [hf] at h
        simp at h
      · rintro ⟨ts, hm⟩
        exact absurd hm (hn ts)
    · exact ⟨fun _ => hex, fun _ => hf⟩
  · intro hpast hready herr
    obtain ⟨mid, heq, hml, hms, -⟩ := startWallet_shape s hpast
    have haft := afterStart_eq_raceerr s hready herr
    refine ⟨?_, ?_, ?_⟩
    · rw [heq, haft]
      simp only [loadingFlagAfter_append]
      rw [startWalletPre_flag, loadingFlagAfter_of_no_loading mid _ hml]
      rfl
    · rw [heq, haft]
      simp
    · intro ts hm
      rw [heq, haft] at hm
      rcases List.mem_append.mp hm with h | h
      · rcases List.mem_append.mp h with h | h
        · simp [startWalletPre] at h
        · exact hms ts h
      · simp at h
  · intro hpast hnorace hlf
    obtain ⟨mid, heq, hml, hms, -⟩ := startWallet_shape s hpast
    obtain ⟨mid2, haft, hml2, hms2, -⟩ := afterStart_shape_norace s hnorace
    have hphase := loadPhase_loadfail s hlf
    refine ⟨?_, ?_, ?_⟩
    · rw [heq, haft, hphase]
      simp only [loadingFlagAfter_append]
      rw [startWalletPre_flag, loadingFlagAfter_of_no_loading mid _ hml,
        loadingFlagAfter_of_no_loading mid2 _ hml2,
        loadingFlagAfter_of_no_loading
          (loadTokens s.htrFetchOk s.getTokensResult s.registeredTokens).1 _
          (loadTokens_no_loading s.htrFetchOk s.getTokensResult s.registeredTokens)]
      rfl
    · rw [heq, haft, hphase]
      simp
    · intro ts hm
      rw [heq, haft, hphase] at hm
      rcases List.mem_append.mp hm with h | h
      · rcases List.mem_append.mp h with h | h
        · simp [startWalletPre] at h
        · exact hms ts h
      · rcases List.mem_append.mp h with h | h
        · exact hms2 ts h
        · rcases List.mem_append.mp h with h | h
          · exact loadTokens_no_success _ _ _ _ h
          · simp at h
  · intro hlf
    have heq := walletReloading_eq_loadfail r hlf
    refine ⟨?_, ?_, ?_⟩
    · rw [heq]
      simp only [loadingFlagAfter_append]
      have hpre : loadingFlagAfter
          (Effect.loadingAddresses true ::
            (if !r.useWalletService then
              [Effect.forkListenForWalletReady, Effect.takeWalletStateReady]
            else [])) init = some true := by
        cases r.useWalletService <;> rfl
      rw [hpre, loadingFlagAfter_of_no_loading
          (loadTokens r.htrFetchOk r.getTokensResult r.registeredTokens).1 _
          (loadTokens_no_loading r.htrFetchOk r.getTokensResult r.registeredTokens)]
      rfl
    · rw [heq]
      simp
    · intro ts hm
      rw [heq] at hm
      rcases List.mem_append.mp hm with h | h
      · rcases List.mem_append.mp h with h | h
        · revert h
          cases r.useWalletService <;> simp
        · exact loadTokens_no_success _ _ _ _ h
      · simp at h

/-- Witness for C10 at a concrete successful start run and a concrete
failing reload run. -/
theorem C10_loading_flag_witness :
    (startWallet
        { hardwareWallet := true, ffIgnored := false, ffFlagValue := false,
          networkName := "mainnet", startResult := Except.ok none,
          readyAfterStart := true, raceError := false, htrFetchOk := true,
          getTokensResult := Except.ok [htrUid], registeredTokens := [htrUid],
          finalReload := false }).head?
      = some (Effect.loadingAddresses true) :=
  (C10_loading_flag
    { hardwareWallet := true, ffIgnored := false, ffFlagValue := false,
      networkName := "mainnet", startResult := Except.ok none,
      readyAfterStart := true, raceError := false, htrFetchOk := true,
      getTokensResult := Except.ok [htrUid], registeredTokens := [htrUid],
      finalReload := false }
    ⟨false, true, Except.ok [htrUid], [], true⟩ none).1

end HathorSagas
